import Mathlib

/-!
Verification of the demucs streaming server (packages/demucs-server/server.py).

Shallow embedding: the chunk-count and crossfade-weight arithmetic of
`generate_streaming_chunks`, the `PersistentLRUCache` index operations, the
GPU-fallback policy mutation, the per-chunk device retry of `process_chunk`,
the predictive queue, the status endpoint, and `sanitize_filename` are
translated into executable Lean definitions, and the specification's claims
about them are proved or refuted.

Python integer division `//` and modulo `%` are floor-based, so they are
modelled by `Int.fdiv` and `Int.fmod`.
-/

namespace DemucsServer

/-! ## Chunk counting (server.py lines 662-672)

`generate_streaming_chunks` computes, for `total_samples` = T,
`chunk_samples` = cs and `overlap_samples` = o (with `hop_samples = cs - o`):

    num_chunks = max(1, (total_samples - overlap_samples) // hop_samples)
    if (total_samples - overlap_samples) % hop_samples > 0:
        num_chunks += 1
-/

/-- Number of chunks computed by `generate_streaming_chunks` (lines 670-672).
Python `//`/`%` are floor division and floor modulo, hence `fdiv`/`fmod`. -/
def num_chunks (T cs o : ℕ) : ℤ :=
  let hop : ℤ := (cs : ℤ) - (o : ℤ)
  let base : ℤ := max 1 (Int.fdiv ((T : ℤ) - (o : ℤ)) hop)
  if 0 < Int.fmod ((T : ℤ) - (o : ℤ)) hop then base + 1 else base

/-- Modelled from the spec's words (section 4.1): "Number of chunks =
`ceil((T - overlapSamples) / hopSamples)`, minimum 1".  For a positive
divisor `hop`, `ceil(a / hop) = (a + hop - 1) fdiv hop`. -/
def spec_num_chunks (T cs o : ℕ) : ℤ :=
  let hop : ℤ := (cs : ℤ) - (o : ℤ)
  max 1 (Int.fdiv ((T : ℤ) - (o : ℤ) + hop - 1) hop)

/-- Helper: ceiling division via floor division, for a positive divisor. -/
theorem ceil_div_split (a h : ℤ) (h0 : 0 < h) (hah : h ≤ a) :
    max 1 (Int.fdiv a h) + (if 0 < Int.fmod a h then 1 else 0)
      = Int.fdiv (a + h - 1) h := by
  have hb : (0 : ℤ) ≤ h := le_of_lt h0
  have hne : h ≠ 0 := ne_of_gt h0
  rw [Int.fdiv_eq_ediv _ hb, Int.fdiv_eq_ediv _ hb, Int.fmod_eq_emod _ hb]
  have hq1 : 1 ≤ a / h := by
    have := Int.ediv_le_ediv h0 hah
    rwa [Int.ediv_self hne] at this
  have hsplit : h * (a / h) + a % h = a := Int.ediv_add_emod a h
  have hrlt : a % h < h := Int.emod_lt_of_pos a h0
  have hrnn : 0 ≤ a % h := Int.emod_nonneg a hne
  rw [max_eq_right hq1]
  by_cases hr : 0 < a % h
  · -- remainder positive: ceiling is quotient + 1
    have hexp : h * (a / h + 1) = h * (a / h) + h := by ring
    have key : a + h - 1 = (a % h - 1) + h * (a / h + 1) := by omega
    have hz : (a % h - 1) / h = 0 := Int.ediv_eq_zero_of_lt (by omega) (by omega)
    rw [if_pos hr, key, Int.add_mul_ediv_left _ _ hne, hz]
    omega
  · -- remainder zero: ceiling is the quotient itself
    have hr0 : a % h = 0 := le_antisymm (not_lt.mp hr) hrnn
    have key : a + h - 1 = (h - 1) + h * (a / h) := by omega
    have hz : (h - 1) / h = 0 := Int.ediv_eq_zero_of_lt (by omega) (by omega)
    rw [if_neg hr, key, Int.add_mul_ediv_left _ _ hne, hz]
    omega

/-- C1 (amended): `generate_streaming_chunks` computes
`max(1, (T-o) // hop)` plus 1 when `(T-o) mod hop > 0` (Python floored
semantics).  For a track at least one chunk long (`cs ≤ T`) this agrees
with the spec's `ceil((T-o)/hop)` (minimum 1) formula; for a shorter track
(`T < cs`) the count is 2 whenever `hop` does not divide `T - o` — in
particular for every `o < T < cs` — and 1 whenever `hop` divides `T - o`
— in particular for `T = o` — so short tracks generally get 2 chunks, not
the claimed 1. -/
theorem num_chunks_amended (T cs o : ℕ) (hoc : o < cs) :
    (cs ≤ T → num_chunks T cs o = spec_num_chunks T cs o) ∧
    (T < cs → ¬ ((cs : ℤ) - (o : ℤ)) ∣ ((T : ℤ) - (o : ℤ)) →
      num_chunks T cs o = 2) ∧
    (T < cs → ((cs : ℤ) - (o : ℤ)) ∣ ((T : ℤ) - (o : ℤ)) →
      num_chunks T cs o = 1) ∧
    (o < T → T < cs → num_chunks T cs o = 2) ∧
    (T = o → num_chunks T cs o = 1) := by
  have h0 : (0 : ℤ) < (cs : ℤ) - (o : ℤ) := by
    have := hoc
    omega
  have hb : (0 : ℤ) ≤ (cs : ℤ) - (o : ℤ) := le_of_lt h0
  have hne : (cs : ℤ) - (o : ℤ) ≠ 0 := ne_of_gt h0
  have main2 : T < cs → ¬ ((cs : ℤ) - (o : ℤ)) ∣ ((T : ℤ) - (o : ℤ)) →
      num_chunks T cs o = 2 := by
    intro hTc hndvd
    have ha : (T : ℤ) - (o : ℤ) < (cs : ℤ) - (o : ℤ) := by omega
    simp only [num_chunks]
    rw [Int.fdiv_eq_ediv _ hb, Int.fmod_eq_emod _ hb]
    have hdivle : ((T : ℤ) - (o : ℤ)) / ((cs : ℤ) - (o : ℤ)) ≤
        (((cs : ℤ) - (o : ℤ)) - 1) / ((cs : ℤ) - (o : ℤ)) :=
      Int.ediv_le_ediv h0 (by omega)
    have hz : (((cs : ℤ) - (o : ℤ)) - 1) / ((cs : ℤ) - (o : ℤ)) = 0 :=
      Int.ediv_eq_zero_of_lt (by omega) (by omega)
    have hq1 : ((T : ℤ) - (o : ℤ)) / ((cs : ℤ) - (o : ℤ)) ≤ 1 := by omega
    have hnn : 0 ≤ ((T : ℤ) - (o : ℤ)) % ((cs : ℤ) - (o : ℤ)) :=
      Int.emod_nonneg _ hne
    have hmodpos : 0 < ((T : ℤ) - (o : ℤ)) % ((cs : ℤ) - (o : ℤ)) := by
      rcases lt_or_eq_of_le hnn with hlt | heq
      · exact hlt
      · exact absurd (Int.dvd_of_emod_eq_zero heq.symm) hndvd
    rw [if_pos hmodpos, max_eq_left hq1]
    norm_num
  have main3 : T < cs → ((cs : ℤ) - (o : ℤ)) ∣ ((T : ℤ) - (o : ℤ)) →
      num_chunks T cs o = 1 := by
    intro hTc hdvd
    have ha : (T : ℤ) - (o : ℤ) < (cs : ℤ) - (o : ℤ) := by omega
    obtain ⟨k, hk⟩ := hdvd
    have hmod : ((T : ℤ) - (o : ℤ)) % ((cs : ℤ) - (o : ℤ)) = 0 :=
      Int.emod_eq_zero_of_dvd ⟨k, hk⟩
    simp only [num_chunks]
    rw [Int.fdiv_eq_ediv _ hb, Int.fmod_eq_emod _ hb, hmod, hk,
        Int.mul_ediv_cancel_left _ hne]
    have hk1 : k ≤ 1 := by
      by_contra hgt
      have h2k : 2 ≤ k := by omega
      have : ((cs : ℤ) - (o : ℤ)) * 2 ≤ ((cs : ℤ) - (o : ℤ)) * k :=
        mul_le_mul_of_nonneg_left h2k hb
      omega
    rw [if_neg (by norm_num), max_eq_left hk1]
  refine ⟨?_, main2, main3, ?_, ?_⟩
  · intro hTc
    have hah : (cs : ℤ) - (o : ℤ) ≤ (T : ℤ) - (o : ℤ) := by omega
    have := ceil_div_split ((T : ℤ) - (o : ℤ)) ((cs : ℤ) - (o : ℤ)) h0 hah
    simp only [num_chunks, spec_num_chunks]
    split
    · omega
    · omega
  · intro hoT hTc
    refine main2 hTc (fun hdvd => ?_)
    have hle := Int.le_of_dvd (by omega) hdvd
    omega
  · intro hTo
    refine main3 (by omega) ⟨0, by omega⟩

/-- Witness for `num_chunks_amended`: the spec's scenario — a 60 s track at
44100 Hz with 10 s chunks and 0.5 s overlap — yields exactly 7 chunks. -/
theorem num_chunks_amended_witness : num_chunks 2646000 441000 22050 = 7 := by
  have h := (num_chunks_amended 2646000 441000 22050 (by norm_num)).1 (by norm_num)
  rw [h]
  decide

/-- C1 counterexample: a track with `o·R < T < Cs·R` (here T = 430000 samples,
about 9.75 s, with 10 s chunks and 0.5 s overlap at 44100 Hz) is processed as
2 chunks by the code, while the claimed formula `ceil((T-o)/hop)` min 1
gives 1. -/
theorem num_chunks_counterexample :
    num_chunks 430000 441000 22050 = 2 ∧
    spec_num_chunks 430000 441000 22050 = 1 := by
  constructor <;> decide

/-! ## Crossfade weight curve (server.py lines 677-721)

Per chunk, the code builds `chunk_weight = torch.ones(1, chunk_len)`, then

    if start_idx > 0 and chunk_len > overlap_samples:
        chunk_weight[0, :overlap_samples] = fade_in[:min(overlap_samples, chunk_len)]
    if end_idx < total_samples and chunk_len > overlap_samples:
        fade_start = max(0, chunk_len - overlap_samples)
        chunk_weight[0, fade_start:] = fade_out[:chunk_len - fade_start]

with `fade_in = torch.linspace(0, 1, overlap_samples)` and
`fade_out = torch.linspace(1, 0, overlap_samples)`.  The weight is modelled
as a function from the sample index inside the chunk (`0 ≤ i < chunk_len`)
to a rational value; the second slice assignment overwrites the first. -/

/-- Value `torch.linspace(0, 1, o)[i] = i / (o - 1)`. -/
def fade_in_val (o i : ℕ) : ℚ := (i : ℚ) / ((o : ℚ) - 1)

/-- Value `torch.linspace(1, 0, o)[i] = 1 - i / (o - 1)`. -/
def fade_out_val (o i : ℕ) : ℚ := 1 - (i : ℚ) / ((o : ℚ) - 1)

/-- The first slice assignment (fade-in, line 712-713). -/
def apply_fade_in (o start len : ℕ) (w : ℕ → ℚ) : ℕ → ℚ :=
  fun i => if 0 < start ∧ o < len ∧ i < min o len then fade_in_val o i else w i

/-- The second slice assignment (fade-out, lines 715-717); it overwrites. -/
def apply_fade_out (o T endI len : ℕ) (w : ℕ → ℚ) : ℕ → ℚ :=
  fun i =>
    if endI < T ∧ o < len ∧ len - o ≤ i then fade_out_val o (i - (len - o))
    else w i

/-- The complete per-chunk weight curve of `generate_streaming_chunks`
(ones, then fade-in assignment, then fade-out assignment), as a function of
overlap samples `o`, total samples `T`, and the chunk's `[start, endI)`
window; `i` is the index within the chunk. -/
def chunk_weight (o T start endI : ℕ) : ℕ → ℚ :=
  apply_fade_out o T endI (endI - start)
    (apply_fade_in o start (endI - start) (fun _ => 1))

/-- Modelled from the claim's words: weight 1 everywhere except a linear
0→1 fade-in over the leading overlap samples when the chunk is not the
first, and 1→0 over the trailing overlap samples when not the last, with
fade length clamped to `min(overlapSamples, chunkLen)`. -/
def claim_chunk_weight (o T start endI : ℕ) (i : ℕ) : ℚ :=
  let len := endI - start
  let f := min o len
  if endI < T ∧ len - f ≤ i then fade_out_val o (i - (len - f))
  else if 0 < start ∧ i < f then fade_in_val o i
  else 1

/-- C2 (amended form of the weight curve): fades are applied only when
`chunk_len > overlap_samples`; a chunk no longer than one overlap window
receives no fade at all (weight 1 throughout), rather than a clamped fade. -/
def amended_chunk_weight (o T start endI : ℕ) (i : ℕ) : ℚ :=
  let len := endI - start
  if len ≤ o then 1
  else if endI < T ∧ len - o ≤ i then fade_out_val o (i - (len - o))
  else if 0 < start ∧ i < o then fade_in_val o i
  else 1

/-- C2 (amended): the code's weight curve equals the amended description —
a linear fade-in over the leading overlap samples for non-first chunks and a
fade-out over the trailing overlap samples for non-last chunks (the fade-out
winning where the two regions intersect), **but only when the chunk is
strictly longer than one overlap window**; shorter chunks get weight 1
throughout, and a single-chunk track (first chunk with `endI = T`) has
weight 1 everywhere. -/
theorem chunk_weight_amended (o T start endI i : ℕ) :
    chunk_weight o T start endI i = amended_chunk_weight o T start endI i ∧
    chunk_weight o T 0 T i = 1 := by
  constructor
  · simp only [chunk_weight, apply_fade_out, apply_fade_in, amended_chunk_weight]
    split_ifs <;> first | rfl | omega
  · simp only [chunk_weight, apply_fade_out, apply_fade_in]
    split_ifs <;> first | rfl | omega

/-- C2 counterexample: a 440999-sample track (one sample short of 10 s at
44100 Hz) with 10 s chunks and 0.5 s overlap is split into two chunks; the
second chunk (`[418950, 440999)`, length 22049 ≤ 22050 overlap samples) is
not the first chunk, so the claim requires a clamped fade-in starting at
weight 0, but the code leaves the weight at 1. -/
theorem chunk_weight_counterexample :
    chunk_weight 22050 440999 418950 440999 0 = 1 ∧
    claim_chunk_weight 22050 440999 418950 440999 0 = 0 := by
  constructor
  · decide
  · simp [claim_chunk_weight, fade_in_val]

/-! ## PersistentLRUCache (server.py lines 386-464)

The cache index is an `OrderedDict` from track id to `{path, size, created}`,
oldest entry first.  It is modelled as a list of `(track_id, size_bytes)`
pairs, head = oldest (least recently used), tail = most recently used.
`_evict_if_needed` pops from the head while
`_get_total_size() + new_size > max_size_bytes` and the index is nonempty;
`put` evicts, then assigns the key and moves it to the end. -/

/-- Method `_get_total_size` (lines 414-419): sum of the recorded sizes. -/
def total_size (l : List (String × ℕ)) : ℕ :=
  (l.map (fun e => e.2)).sum

/-- Method `_evict_if_needed` (lines 421-431): pop the oldest entry while the total
plus the incoming size exceeds capacity and the index is nonempty. -/
def evict_if_needed (maxBytes newSize : ℕ) : List (String × ℕ) → List (String × ℕ)
  | [] => []
  | e :: rest =>
    if maxBytes < total_size (e :: rest) + newSize then
      evict_if_needed maxBytes newSize rest
    else e :: rest

/-- Method `put` (lines 447-459): evict, then write the entry under its key and
`move_to_end` — i.e. any existing entry for the key is dropped and the new
entry is appended at the most-recently-used tail. -/
def cache_put (maxBytes : ℕ) (l : List (String × ℕ)) (k : String) (size : ℕ) :
    List (String × ℕ) :=
  ((evict_if_needed maxBytes size l).filter (fun e => e.1 != k)) ++ [(k, size)]

/-- A sequence of `put` calls starting from the empty index. -/
def cache_put_fold (maxBytes : ℕ) (ops : List (String × ℕ)) : List (String × ℕ) :=
  ops.foldl (fun l p => cache_put maxBytes l p.1 p.2) []

/-- The claimed invariant: total recorded bytes within capacity, or a single
entry that alone exceeds capacity. -/
def cache_inv (maxBytes : ℕ) (l : List (String × ℕ)) : Prop :=
  total_size l ≤ maxBytes ∨ ∃ k s, l = [(k, s)] ∧ maxBytes < s

theorem evict_if_needed_spec (maxBytes newSize : ℕ) (l : List (String × ℕ)) :
    evict_if_needed maxBytes newSize l = [] ∨
      total_size (evict_if_needed maxBytes newSize l) + newSize ≤ maxBytes := by
  induction l with
  | nil => exact Or.inl rfl
  | cons e rest ih =>
    simp only [evict_if_needed]
    split
    · exact ih
    · right
      omega

theorem total_size_filter_le (p : String × ℕ → Bool) (l : List (String × ℕ)) :
    total_size (l.filter p) ≤ total_size l := by
  induction l with
  | nil => simp [total_size]
  | cons e rest ih =>
    simp only [List.filter_cons]
    split
    · simp only [total_size, List.map_cons, List.sum_cons] at *
      omega
    · simp only [total_size, List.map_cons, List.sum_cons] at *
      omega

theorem cache_put_inv (maxBytes : ℕ) (l : List (String × ℕ)) (k : String) (s : ℕ) :
    cache_inv maxBytes (cache_put maxBytes l k s) := by
  unfold cache_put cache_inv
  rcases evict_if_needed_spec maxBytes s l with hnil | hle
  · rw [hnil]
    simp only [List.filter_nil, List.nil_append]
    by_cases hs : s ≤ maxBytes
    · left
      simp [total_size, hs]
    · right
      exact ⟨k, s, rfl, by omega⟩
  · left
    have hf := total_size_filter_le (fun e => e.1 != k) (evict_if_needed maxBytes s l)
    have happ : total_size
        ((evict_if_needed maxBytes s l).filter (fun e => e.1 != k) ++ [(k, s)])
        = total_size ((evict_if_needed maxBytes s l).filter (fun e => e.1 != k)) + s := by
      simp [total_size]
    omega

theorem cache_put_fold_inv (maxBytes : ℕ) (ops : List (String × ℕ)) :
    ∀ l : List (String × ℕ), cache_inv maxBytes l →
      cache_inv maxBytes (ops.foldl (fun l p => cache_put maxBytes l p.1 p.2) l) := by
  induction ops with
  | nil =>
    intro l h
    simpa using h
  | cons p rest ih =>
    intro l _
    rw [List.foldl_cons]
    exact ih _ (cache_put_inv maxBytes l p.1 p.2)

/-- C3: after any sequence of `put` calls the index satisfies the size
invariant — the recorded sizes sum to at most `max_size_bytes`, or the cache
holds exactly one entry whose own size exceeds capacity — and every `put`
(after evicting oldest-first from the head) inserts the new entry at the
most-recently-used tail position. -/
theorem persistent_lru_cache_put_invariant (maxBytes : ℕ) (ops : List (String × ℕ))
    (l : List (String × ℕ)) (k : String) (s : ℕ) :
    cache_inv maxBytes (cache_put_fold maxBytes ops) ∧
    (cache_put maxBytes l k s).getLast? = some (k, s) := by
  constructor
  · exact cache_put_fold_inv maxBytes ops [] (Or.inl (by simp [total_size]))
  · unfold cache_put
    exact List.getLast?_concat _

/-! ## GPU fallback policy (server.py lines 266-280)

The mutable process-wide policy globals `GPU_FAILED`, `DEVICE`,
`EFFECTIVE_MODE_NAME` and `EFFECTIVE_CHUNK_SECONDS` are bundled into a
record.  `trigger_gpu_fallback` runs under `GPU_FAILED_LOCK`, so calls are
serialized; its sequential semantics is a pure state transformer. -/

structure ServerPolicy where
  gpuFailed : Bool
  device : String
  effectiveModeName : String
  effectiveChunkSeconds : ℚ
deriving DecidableEq, Repr

/-- Function `trigger_gpu_fallback` (lines 269-280): under the lock, return
immediately if `GPU_FAILED` is already set, otherwise set it, downgrade the
device to `"cpu"` and the chunk duration to the constant 2.5 s. -/
def trigger_gpu_fallback (st : ServerPolicy) : ServerPolicy :=
  if st.gpuFailed then st
  else
    { gpuFailed := true
      device := "cpu"
      effectiveModeName := "fast (CPU fallback)"
      effectiveChunkSeconds := 5 / 2 }

/-- C4: `trigger_gpu_fallback` is idempotent; once `GPU_FAILED` is set every
further call leaves the whole policy unchanged; and the first call from a
non-failed state performs exactly the claimed mutation (`gpu_failed = true`,
device `"cpu"`, chunk duration 2.5 s). -/
theorem trigger_gpu_fallback_once (st : ServerPolicy) :
    trigger_gpu_fallback (trigger_gpu_fallback st) = trigger_gpu_fallback st ∧
    trigger_gpu_fallback { st with gpuFailed := true } = { st with gpuFailed := true } ∧
    trigger_gpu_fallback { st with gpuFailed := false } =
      { gpuFailed := true, device := "cpu",
        effectiveModeName := "fast (CPU fallback)", effectiveChunkSeconds := 5 / 2 } := by
  refine ⟨?_, ?_, ?_⟩
  · cases h : st.gpuFailed <;> simp [trigger_gpu_fallback, h]
  · simp [trigger_gpu_fallback]
  · simp [trigger_gpu_fallback]

/-! ## Per-chunk processing with CUDA retry (server.py lines 573-606)

`process_chunk` calls the separation engine; a `RuntimeError` whose message
contains "CUDA", "cuda" or "no kernel image" triggers the one-shot global
fallback, moves the model to CPU and retries the same chunk exactly once on
CPU; any other error propagates immediately.  The engine is abstracted as a
function from the device name to a result. -/

/-- A Python exception: the code distinguishes `RuntimeError` (caught) from
every other exception type (not caught). -/
inductive PyError where
  | runtimeError (msg : String)
  | otherError (msg : String)
deriving DecidableEq, Repr

def chars_begin_with : List Char → List Char → Bool
  | _, [] => true
  | [], _ :: _ => false
  | c :: cs, d :: ds => c == d && chars_begin_with cs ds

def chars_contain : List Char → List Char → Bool
  | [], needle => chars_begin_with [] needle
  | c :: t, needle => chars_begin_with (c :: t) needle || chars_contain t needle

/-- Python's `needle in hay` on strings. -/
def str_contains (hay needle : String) : Bool :=
  chars_contain hay.data needle.data

/-- The device-failure signature test (lines 589-590):
`"CUDA" in error_str or "cuda" in error_str or "no kernel image" in error_str`. -/
def is_cuda_error (msg : String) : Bool :=
  str_contains msg ("CUDA") || str_contains msg ("cuda") ||
    str_contains msg ("no kernel image")

/-- Outcome of one `process_chunk` call: the propagated result, the policy
state afterwards, the devices on which the engine was invoked (in order),
and whether the model instance was moved to CPU. -/
structure ChunkOutcome where
  result : Except PyError Unit
  policy : ServerPolicy
  attempts : List String
  movedToCpu : Bool
deriving Repr

/-- Function `process_chunk` (lines 573-606): try the engine on the current global
device; on a `RuntimeError` with a CUDA signature, trigger the global
fallback, move the model to CPU and retry once on CPU, propagating the
retry's result; on any other error, propagate immediately. -/
def process_chunk_run (sep : String → Except PyError Unit) (st : ServerPolicy) :
    ChunkOutcome :=
  match sep st.device with
  | .ok r => ⟨.ok r, st, [st.device], false⟩
  | .error (.runtimeError msg) =>
    if is_cuda_error msg then
      ⟨sep ("cpu"), trigger_gpu_fallback st, [st.device, "cpu"], true⟩
    else
      ⟨.error (.runtimeError msg), st, [st.device], false⟩
  | .error (.otherError msg) => ⟨.error (.otherError msg), st, [st.device], false⟩

/-- C5: if the engine raises a `RuntimeError` with a CUDA signature, the
global fallback is triggered, the model is moved to CPU and the same chunk
is retried exactly once on CPU (the retry's outcome propagating as-is);
a `RuntimeError` without the signature, or any non-`RuntimeError`, is not
retried — it propagates immediately with policy untouched. -/
theorem process_chunk_cuda_retry (sep : String → Except PyError Unit)
    (st : ServerPolicy) (msg : String) :
    (sep st.device = .error (.runtimeError msg) → is_cuda_error msg = true →
      process_chunk_run sep st =
        ⟨sep ("cpu"), trigger_gpu_fallback st, [st.device, "cpu"], true⟩) ∧
    (sep st.device = .error (.runtimeError msg) → is_cuda_error msg = false →
      process_chunk_run sep st =
        ⟨.error (.runtimeError msg), st, [st.device], false⟩) ∧
    (sep st.device = .error (.otherError msg) →
      process_chunk_run sep st =
        ⟨.error (.otherError msg), st, [st.device], false⟩) := by
  refine ⟨?_, ?_, ?_⟩
  · intro h hc
    simp [process_chunk_run, h, hc]
  · intro h hc
    simp [process_chunk_run, h, hc]
  · intro h
    simp [process_chunk_run, h]

/-- Witness for `process_chunk_cuda_retry`: a CUDA-signature failure on
`"cuda"` with a succeeding CPU retry. -/
theorem process_chunk_cuda_retry_witness :
    process_chunk_run
      (fun d => if d = "cuda" then
          .error (.runtimeError ("CUDA error: no kernel image is available"))
        else .ok ())
      ⟨false, "cuda", "quality (GPU detected)", 10⟩ =
      ⟨.ok (), ⟨true, "cpu", "fast (CPU fallback)", 5 / 2⟩, ["cuda", "cpu"], true⟩ := by
  have h := (process_chunk_cuda_retry
      (fun d => if d = "cuda" then
          .error (.runtimeError ("CUDA error: no kernel image is available"))
        else .ok ())
      ⟨false, "cuda", "quality (GPU detected)", 10⟩
      "CUDA error: no kernel image is available").1 (by rfl) (by rfl)
  rw [h]
  rfl

/-! ## Session chunk loop (server.py lines 647-768)

`generate_streaming_chunks` fixes `chunk_seconds` once, before the loop
(line 660: `2.5 if GPU_FAILED else EFFECTIVE_CHUNK_SECONDS`), converts it to
samples (line 662), computes the chunk count, and then iterates; each
iteration extracts the window `[chunk_idx*hop, min(chunk_idx*hop+cs, T))`
and processes it with `process_chunk`, whose device retry can downgrade the
global policy mid-loop.  The loop never re-reads the policy's chunk
duration. -/

/-- Line 660: the chunk duration a newly started generator call reads. -/
def effective_chunk_seconds_now (st : ServerPolicy) : ℚ :=
  if st.gpuFailed then 5 / 2 else st.effectiveChunkSeconds

/-- Line 662: `int(chunk_seconds * SAMPLE_RATE)` (nonnegative durations, so
truncation and floor agree). -/
def seconds_to_samples (q : ℚ) : ℕ := (q * 44100).floor.toNat

/-- One processed chunk of a session: its sample window and the device the
separation engine finally ran on. -/
structure ChunkRec where
  start : ℕ
  stop : ℕ
  deviceUsed : String
deriving DecidableEq, Repr

/-- The chunk loop (lines 688-749): windows come from the `cs`/`o` fixed at
generator start; each chunk runs `process_chunk` against the current policy;
an unrecovered error aborts the session (third component `true`). -/
def run_chunks (sep : ℕ → String → Except PyError Unit) (cs o T : ℕ) :
    List ℕ → ServerPolicy → List ChunkRec × ServerPolicy × Bool
  | [], st => ([], st, false)
  | i :: rest, st =>
    let out := process_chunk_run (sep i) st
    match out.result with
    | .error _ => ([], out.policy, true)
    | .ok _ =>
      let next := run_chunks sep cs o T rest out.policy
      (⟨i * (cs - o), min (i * (cs - o) + cs) T,
          if out.movedToCpu then ("cpu") else st.device⟩ :: next.1,
        next.2.1, next.2.2)

/-- Generator `generate_streaming_chunks` for a `T`-sample track with `o` overlap
samples, starting from policy `st0`: chunk duration and chunk count are
computed once, up front. -/
def generate_streaming_chunks_run (sep : ℕ → String → Except PyError Unit)
    (st0 : ServerPolicy) (T o : ℕ) : List ChunkRec × ServerPolicy × Bool :=
  run_chunks sep (seconds_to_samples (effective_chunk_seconds_now st0)) o T
    (List.range (num_chunks T (seconds_to_samples (effective_chunk_seconds_now st0)) o).toNat)
    st0

theorem run_chunks_complete (sep : ℕ → String → Except PyError Unit) (cs o T : ℕ)
    (h1 : ∀ i d, sep i d = .ok () ∨
      ∃ msg, sep i d = .error (.runtimeError msg) ∧ is_cuda_error msg = true)
    (h2 : ∀ i, sep i ("cpu") = .ok ()) :
    ∀ (idxs : List ℕ) (st : ServerPolicy),
      (run_chunks sep cs o T idxs st).2.2 = false ∧
      (run_chunks sep cs o T idxs st).1.map (fun c => (c.start, c.stop)) =
        idxs.map (fun i => (i * (cs - o), min (i * (cs - o) + cs) T)) := by
  intro idxs
  induction idxs with
  | nil => exact fun st => ⟨rfl, rfl⟩
  | cons i rest ih =>
    intro st
    rcases h1 i st.device with hok | ⟨msg, herr, hcuda⟩
    · have hih := ih st
      simp only [run_chunks, process_chunk_run, hok, List.map_cons]
      exact ⟨hih.1, by rw [hih.2]⟩
    · have hih := ih (trigger_gpu_fallback st)
      simp only [run_chunks, process_chunk_run, herr, hcuda, if_true, h2 i, List.map_cons]
      exact ⟨hih.1, by rw [hih.2]⟩

/-- C6 (amended): a mid-session device failure (every engine failure being a
CUDA-signature `RuntimeError`, with CPU retries succeeding) does not abort
the session — every scheduled chunk is processed — and the session continues
on the downgraded device; **but** the chunk windows of the whole session are
the ones fixed from the policy in force when the generator started: the
downgraded (smaller) chunk duration is not applied to the remaining chunks
of the running session, only to sessions started later. -/
theorem session_fixed_chunk_sizing (sep : ℕ → String → Except PyError Unit)
    (st0 : ServerPolicy) (T o : ℕ)
    (h1 : ∀ i d, sep i d = .ok () ∨
      ∃ msg, sep i d = .error (.runtimeError msg) ∧ is_cuda_error msg = true)
    (h2 : ∀ i, sep i ("cpu") = .ok ()) :
    (generate_streaming_chunks_run sep st0 T o).2.2 = false ∧
    (generate_streaming_chunks_run sep st0 T o).1.map (fun c => (c.start, c.stop)) =
      (List.range
          (num_chunks T (seconds_to_samples (effective_chunk_seconds_now st0)) o).toNat).map
        (fun i =>
          (i * (seconds_to_samples (effective_chunk_seconds_now st0) - o),
            min (i * (seconds_to_samples (effective_chunk_seconds_now st0) - o) +
              seconds_to_samples (effective_chunk_seconds_now st0)) T)) :=
  run_chunks_complete sep _ o T h1 h2 _ st0

/-- Witness for `session_fixed_chunk_sizing`: a 60 s track on a CUDA policy
where chunk 2 fails with a CUDA error and is retried on CPU. -/
theorem session_fixed_chunk_sizing_witness :
    (generate_streaming_chunks_run
        (fun i d => if d = "cuda" && i == 2 then
            .error (.runtimeError ("CUDA out of memory"))
          else .ok ())
        ⟨false, "cuda", "quality (GPU detected)", 10⟩ 2646000 22050).2.2 = false := by
  have h := session_fixed_chunk_sizing
      (fun i d => if d = "cuda" && i == 2 then
          .error (.runtimeError ("CUDA out of memory"))
        else .ok ())
      ⟨false, "cuda", "quality (GPU detected)", 10⟩ 2646000 22050
      (by
        intro i d
        by_cases hc : d = "cuda" && i == 2
        · exact Or.inr ⟨"CUDA out of memory", by simp [hc], by decide⟩
        · exact Or.inl (by simp [hc]))
      (by
        intro i
        rfl)
  exact h.1

/-- C6 counterexample: on a 60 s track (2646000 samples, 10 s chunks, 0.5 s
overlap) with a CUDA failure on chunk 2 (the third of 7), the session
completes all 7 chunks and the policy is downgraded to 2.5 s chunks
(110250 samples) from chunk 2 onwards — yet chunks 3..5 still use
441000-sample windows, so the claim that remaining chunks are processed
with the updated smaller chunk duration is false. -/
theorem session_chunk_sizing_counterexample :
    (generate_streaming_chunks_run
        (fun i d => if d = "cuda" && i == 2 then
            .error (.runtimeError ("CUDA out of memory"))
          else .ok ())
        ⟨false, "cuda", "quality (GPU detected)", 10⟩ 2646000 22050).1.map
        (fun c => (c.stop - c.start, c.deviceUsed)) =
      [(441000, "cuda"), (441000, "cuda"), (441000, "cpu"), (441000, "cpu"),
        (441000, "cpu"), (441000, "cpu"), (132300, "cpu")] ∧
    (generate_streaming_chunks_run
        (fun i d => if d = "cuda" && i == 2 then
            .error (.runtimeError ("CUDA out of memory"))
          else .ok ())
        ⟨false, "cuda", "quality (GPU detected)", 10⟩ 2646000 22050).2.1 =
      ⟨true, "cpu", "fast (CPU fallback)", 5 / 2⟩ ∧
    seconds_to_samples (5 / 2) = 110250 := by
  have hcs : seconds_to_samples
      (effective_chunk_seconds_now ⟨false, "cuda", "quality (GPU detected)", 10⟩) = 441000 := by
    norm_num [seconds_to_samples, effective_chunk_seconds_now, Rat.floor]
    rfl
  have hcs2 : seconds_to_samples (5 / 2) = 110250 := by
    norm_num [seconds_to_samples, Rat.floor]
    rfl
  refine ⟨?_, ?_, hcs2⟩ <;>
    · unfold generate_streaming_chunks_run
      rw [hcs]
      rfl

/-! ## Status endpoint and worker error path (server.py lines 1046-1195)

`stream_status` checks, in order: cache hit → serve-dir file → progressive
stream file → legacy first-chunk file → active session entry → predictive
in-flight set → 404.  The background worker's `except` block (lines
1046-1052) only logs and emits an `error` event over the socket; it never
writes an `error` status into `active_sessions`, and the session entry is
popped 5 s later. -/

/-- An `active_sessions[track_id]` record (status/progress/stage plus the
first-chunk fields set by the streaming loop). -/
structure SessionRec where
  status : String
  progress : ℚ
  stage : String
  firstChunkReady : Bool
  firstChunkUrl : Option String
deriving DecidableEq, Repr

/-- A `stream_status` JSON response, by its `status` field and payload. -/
inductive StatusResp where
  | complete (url : String)
  | processingResp (progress : ℚ) (stage : Option String) (firstChunkUrl : Option String)
  | notFound
  | errorResp (msg : String)
deriving DecidableEq, Repr

/-- Endpoint `stream_status` (lines 1132-1195). -/
def stream_status (cacheHit serveFile streamFile firstFile : Bool)
    (session : Option SessionRec) (inPredictive : Bool) (track_id : String) :
    StatusResp :=
  if cacheHit then .complete ("/serve/" ++ track_id)
  else if serveFile then .complete ("/serve/" ++ track_id)
  else if streamFile then
    .processingResp 20 none (some ("/serve/" ++ track_id ++ "_stream"))
  else if firstFile then
    .processingResp 20 none (some ("/serve/" ++ track_id ++ "_first"))
  else
    match session with
    | some s =>
      .processingResp s.progress (some s.stage)
        (if s.firstChunkReady then s.firstChunkUrl else none)
    | none => if inPredictive then .processingResp 10 (some ("In queue")) none
              else .notFound

/-- The worker's `except` block (lines 1046-1052): both the sessions table
and the on-disk files (in particular a progressive `_stream.mp3` written by
earlier loop iterations) are left untouched; an `error` event
`(track_id, message)` is emitted. -/
def process_async_on_error (sessions : List (String × SessionRec))
    (files : List String) (track_id msg : String) :
    List (String × SessionRec) × List String × (String × String) :=
  (sessions, files, (track_id, msg))

def status_is_error : StatusResp → Bool
  | .errorResp _ => true
  | _ => false

/-- C7 (amended): on an unrecovered worker error neither the session table
nor the on-disk files are mutated (no retry, no `error` status is recorded,
no cleanup of the progressive stream file) and the `error` event carrying
the message is emitted to observers; the status endpoint can never answer
with status `error` for any query; after the session entry is
garbage-collected the status is `processing` if a progressive stream file
written before the failure remains on disk, and `not_found` only when no
artifacts for the id exist. -/
theorem stream_status_never_error (sessions : List (String × SessionRec))
    (files : List String) (track_id msg : String)
    (cacheHit serveFile streamFile firstFile : Bool)
    (session : Option SessionRec) (inPredictive : Bool) :
    process_async_on_error sessions files track_id msg =
      (sessions, files, (track_id, msg)) ∧
    status_is_error
      (stream_status cacheHit serveFile streamFile firstFile session inPredictive
        track_id) = false ∧
    stream_status false false true false none false track_id =
      .processingResp 20 none (some ("/serve/" ++ track_id ++ "_stream")) ∧
    stream_status false false false false none false track_id = .notFound := by
  refine ⟨rfl, ?_, rfl, rfl⟩
  cases session with
  | none =>
    unfold stream_status
    split_ifs <;> rfl
  | some s =>
    unfold stream_status
    split_ifs <;> rfl

/-- C7 counterexample: a worker that died with `"FFmpeg failed"` after
reaching 50 % leaves both its session record and the progressive stream
file as they were; a status query before garbage collection answers
`processing` (progress 50) from the stale session record, and a query after
garbage collection still answers `processing` from the leftover stream
file — never `error`. -/
theorem stream_status_error_counterexample :
    (process_async_on_error [("track1", ⟨"processing", 50, "Chunk 3/7", false, none⟩)]
        [("demucs-serve/track1_stream.mp3")] ("track1") ("FFmpeg failed")).1 =
      [("track1", ⟨"processing", 50, "Chunk 3/7", false, none⟩)] ∧
    (process_async_on_error [("track1", ⟨"processing", 50, "Chunk 3/7", false, none⟩)]
        [("demucs-serve/track1_stream.mp3")] ("track1") ("FFmpeg failed")).2.1 =
      [("demucs-serve/track1_stream.mp3")] ∧
    stream_status false false false false
        (some ⟨"processing", 50, "Chunk 3/7", false, none⟩) false ("track1") =
      .processingResp 50 (some ("Chunk 3/7")) none ∧
    stream_status false false true false none false ("track1") =
      .processingResp 20 none (some ("/serve/track1_stream")) := by
  exact ⟨rfl, rfl, rfl, rfl⟩

/-! ## Predictive processing queue (server.py lines 470-525)

`PredictiveProcessor` uses a plain `queue.Queue` (FIFO) of
`(priority, track_id, url)` tuples.  `enqueue` (lines 491-495) drops the
request only when the id is in the worker's own `processing` set or already
cached; the worker (lines 497-523) takes items in queue order, re-checks,
processes, and the processed track ends up cached
(`process_full_track_sync` → `generate_streaming_chunks` → `cache.put`). -/

structure PredItem where
  priority : ℕ
  track_id : String
  url : String
deriving DecidableEq, Repr

/-- The shared state the predictive path reads: the FIFO queue (head =
front), the worker's in-flight set, the cache keys, and the foreground
`active_sessions` keys (which exist in the process but are *not* consulted
by `enqueue`). -/
structure PredState where
  q : List PredItem
  processing : List String
  cacheKeys : List String
  activeSessions : List String
deriving DecidableEq, Repr

/-- Method `enqueue` (lines 491-495): no-op iff the id is in `self.processing` or
`cache.has(id)`; otherwise the tuple is appended to the FIFO queue. -/
def pred_enqueue (st : PredState) (track_id url : String) (priority : ℕ) :
    PredState :=
  if st.processing.contains track_id || st.cacheKeys.contains track_id then st
  else { st with q := st.q ++ [⟨priority, track_id, url⟩] }

/-- The worker loop's consumption order (lines 497-523): items are taken
from the FIFO queue front; an item whose id is meanwhile in-flight or
cached is skipped; a processed item's id becomes cached. -/
def worker_order (processing cacheKeys : List String) :
    List PredItem → List String
  | [] => []
  | it :: rest =>
    if processing.contains it.track_id || cacheKeys.contains it.track_id then
      worker_order processing cacheKeys rest
    else
      it.track_id :: worker_order processing (it.track_id :: cacheKeys) rest

/-- Modelled from the spec's words: ascending priority order, FIFO on ties
(a stable insertion sort on the priority field). -/
def priority_insert (it : PredItem) : List PredItem → List PredItem
  | [] => [it]
  | x :: xs =>
    if x.priority < it.priority then x :: priority_insert it xs
    else it :: x :: xs

/-- Modelled from the spec's words: the order a priority queue would yield. -/
def spec_priority_order : List PredItem → List PredItem
  | [] => []
  | x :: xs => priority_insert x (spec_priority_order xs)

/-- C8: the queue is `queue.Queue`, a plain FIFO — the worker consumes items
in enqueue order and ignores the priority field entirely, contradicting both
the claim and the code's own docstring ("Lower priority = process first",
line 492): enqueuing `a` at priority 5 and then `b` at priority 0 processes
`a` first, while a priority queue would process `b` first. -/
theorem predictive_fifo_ignores_priority :
    worker_order [] []
        (pred_enqueue (pred_enqueue ⟨[], [], [], []⟩ "a" "urlA" 5) "b" "urlB" 0).q =
      ["a", "b"] ∧
    (spec_priority_order
        (pred_enqueue (pred_enqueue ⟨[], [], [], []⟩ "a" "urlA" 5) "b" "urlB" 0).q).map
        (fun it => it.track_id) =
      ["b", "a"] := by
  exact ⟨rfl, rfl⟩

/-- C9 (amended): `enqueue` is a no-op exactly when the track is in the
predictive worker's own in-flight set or already cached; a track that is
only being processed by an active foreground session (or already waiting in
the queue) is appended again — the `active_sessions` table is never
consulted. -/
theorem pred_enqueue_amended (st : PredState) (track_id url : String) (priority : ℕ) :
    ((st.processing.contains track_id || st.cacheKeys.contains track_id) = true →
      pred_enqueue st track_id url priority = st) ∧
    ((st.processing.contains track_id || st.cacheKeys.contains track_id) = false →
      pred_enqueue st track_id url priority =
        { st with q := st.q ++ [⟨priority, track_id, url⟩] }) := by
  constructor
  · intro h
    unfold pred_enqueue
    rw [h]
    simp
  · intro h
    unfold pred_enqueue
    rw [h]
    simp

/-- Witness for `pred_enqueue_amended`: a cached track is not enqueued. -/
theorem pred_enqueue_amended_witness :
    pred_enqueue ⟨[], [], ["t"], []⟩ "t" "url" 1 = ⟨[], [], ["t"], []⟩ := by
  have h := (pred_enqueue_amended ⟨[], [], ["t"], []⟩ "t" "url" 1).1 (by rfl)
  exact h

/-- C9 counterexample: a track with an active foreground session (and
nothing else) is *not* rejected — the queue grows from 0 to 1 items, so
`enqueue` is not a no-op for a track in flight in a foreground session. -/
theorem pred_enqueue_counterexample :
    (pred_enqueue ⟨[], [], [], ["t"]⟩ "t" "url" 1).q.length = 1 := by
  rfl

/-! ## Filename sanitization and serving (server.py lines 61-69, 862-898)

`sanitize_filename` is `re.sub(r'[\\/:*?"<>|]', '_', name)` — a per-character
replacement.  `serve_audio` consults the cache under the *raw* track id, then
falls back to on-disk files named by the *sanitized* id. -/

/-- One character of the regex class `[\\/:*?"<>|]`. -/
def invalid_filename_char (c : Char) : Bool :=
  c == '\\' || c == '/' || c == ':' || c == '*' || c == '?' || c == '"' ||
    c == '<' || c == '>' || c == '|'

/-- Function `sanitize_filename` (lines 61-69). -/
def sanitize_filename (s : String) : String :=
  ⟨s.data.map (fun c => if invalid_filename_char c then '_' else c)⟩

/-- Serve-directory path for a track (line 877): sanitized id. -/
def serve_path (track_id : String) : String :=
  "demucs-serve/" ++ sanitize_filename track_id ++ ".mp3"

/-- Progressive-stream path for a track (line 884): sanitized id. -/
def stream_file_path (track_id : String) : String :=
  "demucs-serve/" ++ sanitize_filename track_id ++ "_stream.mp3"

/-- Legacy first-chunk path for a track (line 891): sanitized id. -/
def first_file_path (track_id : String) : String :=
  "demucs-serve/" ++ sanitize_filename track_id ++ "_first.mp3"

/-- Endpoint `serve_audio` (lines 862-898): cache lookup under the raw id first
(`cache.get` returns a verified path), then the serve file, the progressive
stream file, and the legacy first chunk, all under the sanitized id. -/
def serve_audio (cacheLookup : String → Option String)
    (fs : String → Option String) (track_id : String) : Option String :=
  match cacheLookup track_id with
  | some p => fs p
  | none =>
    match fs (serve_path track_id) with
    | some b => some b
    | none =>
      match fs (stream_file_path track_id) with
      | some b => some b
      | none =>
        match fs (first_file_path track_id) with
        | some b => some b
        | none => none

theorem invalid_filename_char_iff (c : Char) :
    invalid_filename_char c = true ↔
      (c = '\\' ∨ c = '/' ∨ c = ':' ∨ c = '*' ∨ c = '?' ∨ c = '"' ∨
        c = '<' ∨ c = '>' ∨ c = '|') := by
  simp only [invalid_filename_char, Bool.or_eq_true, beq_iff_eq]
  tauto

/-- C10: `sanitize_filename` maps exactly the characters
`\ / : * ? " < > |` to `_` and leaves every other character unchanged;
it is not injective — the distinct ids `"a:b"` and `"a?b"` share the
sanitized form `"a_b"` and hence the same serve path, so `serve_audio` for
`"a:b"` (cache miss) returns the file written for `"a?b"`, while the cache
index, keyed by the raw ids, keeps both as distinct entries. -/
theorem sanitize_filename_collision (s : String) :
    (sanitize_filename s).data =
      s.data.map (fun c =>
        if c ∈ ['\\', '/', ':', '*', '?', '"', '<', '>', '|'] then '_' else c) ∧
    sanitize_filename ("a:b") = sanitize_filename ("a?b") ∧
    "a:b" ≠ "a?b" ∧
    serve_path ("a:b") = serve_path ("a?b") ∧
    serve_audio (fun _ => none)
        (fun p => if p = serve_path ("a?b") then some ("mp3-bytes-of-a?b") else none)
        "a:b" = some ("mp3-bytes-of-a?b") ∧
    (cache_put 1000 (cache_put 1000 [] "a:b" 10) "a?b" 20).length = 2 := by
  refine ⟨?_, rfl, by decide, rfl, by rfl, by rfl⟩
  simp only [sanitize_filename]
  show List.map _ s.data = List.map _ s.data
  have hfg : (fun c => if invalid_filename_char c then '_' else c) =
      (fun c =>
        if c ∈ ['\\', '/', ':', '*', '?', '"', '<', '>', '|'] then '_' else c) := by
    funext c
    by_cases hc : c ∈ ['\\', '/', ':', '*', '?', '"', '<', '>', '|']
    · have hb : invalid_filename_char c = true :=
        (invalid_filename_char_iff c).mpr (by simpa using hc)
      simp [hb, hc]
    · have hb : invalid_filename_char c = false := by
        cases hinv : invalid_filename_char c
        · rfl
        · exact absurd ((invalid_filename_char_iff c).mp hinv)
            (by simpa using hc)
      simp [hb, hc]
  rw [hfg]

end DemucsServer
